import Mathlib

/-!
Shallow embedding of the `sentry-options` Rust runtime (schema-backed option
store, feature-flag evaluator, and test-override mechanism) together with
proofs about its behaviour.

Conventions of the embedding:
* Rust machine integers are modelled as `Nat`/`Int`, with explicit `% 2^32`
  where 32-bit overflow matters (the SHA-1 core).
* Rust `f64` payloads are modelled as exact rationals (`ℚ`).  All values a
  JSON document can denote are finite, so NaN/infinity never arise from the
  wire format; float formatting is approximated by `toString` on `ℚ` (no
  claim settled here depends on float formatting or float equality).
* `HashMap` state that is only observed through key lookups is modelled as a
  lookup function with pointwise update; `HashMap`s that are traversed
  entry-by-entry (parsed JSON objects, schema option tables) are modelled as
  association lists.
* Fallible Rust functions returning `Result<T, E>` become `Except E T`;
  side-effect-only debug logging (`eprintln!`) is dropped.
-/

set_option maxRecDepth 1000000

namespace SentryOptions

/-! ## JSON values (`serde_json::Value`)

`serde_json::Value::Number` stores either an integer (`i64`/`u64`) or an
`f64`; the two cases are observably distinct (`is_i64` / `is_f64`,
`as_i64` / `as_f64`), so they are separate constructors here. -/

inductive Json where
  | null : Json
  | bool (b : Bool) : Json
  | intNum (i : Int) : Json
  | floatNum (q : ℚ) : Json
  | str (s : String) : Json
  | arr (xs : List Json) : Json
  | obj (kvs : List (String × Json)) : Json

/-- Embeds `Value::as_str`. -/
def Json.as_str : Json → Option String
  | .str s => some s
  | _ => none

/-- Embeds `Value::as_i64` (only integer numbers qualify). -/
def Json.as_i64 : Json → Option Int
  | .intNum i => some i
  | _ => none

/-- Embeds `Value::as_f64`; serde converts integer numbers to `f64`. -/
def Json.as_f64 : Json → Option ℚ
  | .intNum i => some (i : ℚ)
  | .floatNum q => some q
  | _ => none

/-- Embeds `Value::as_bool`. -/
def Json.as_bool : Json → Option Bool
  | .bool b => some b
  | _ => none

/-- Embeds `Value::as_array`. -/
def Json.as_array : Json → Option (List Json)
  | .arr xs => some xs
  | _ => none

/-- Embeds `Value::as_object`. -/
def Json.as_object : Json → Option (List (String × Json))
  | .obj kvs => some kvs
  | _ => none

/-- Embeds `Value::is_string`. -/
def Json.is_string (j : Json) : Bool := j.as_str.isSome

/-- Embeds `Value::is_i64`. -/
def Json.is_i64 : Json → Bool
  | .intNum _ => true
  | _ => false

/-- Embeds `Value::is_f64` (true only for float numbers, as in serde). -/
def Json.is_f64 : Json → Bool
  | .floatNum _ => true
  | _ => false

/-- Embeds `Value::is_boolean`. -/
def Json.is_boolean : Json → Bool
  | .bool _ => true
  | _ => false

/-! ## Association-list lookups (JSON objects, schema tables) -/

/-- Lookup in an association list (first binding wins), the observable
semantics of `HashMap::get` / `serde_json::Map::get`. -/
def alookup {β : Type} : List (String × β) → String → Option β
  | [], _ => none
  | (k', v) :: rest, k => if k' = k then some v else alookup rest k

/-! ## Context values (`clients/rust/src/features.rs`, `ContextValue`) -/

inductive ContextValue where
  | string (s : String) : ContextValue
  | int (i : Int) : ContextValue
  | float (q : ℚ) : ContextValue
  | bool (b : Bool) : ContextValue
  | stringList (v : List String) : ContextValue
  | intList (v : List Int) : ContextValue
  | floatList (v : List ℚ) : ContextValue
  | boolList (v : List Bool) : ContextValue

/-- Debug rendering of a `String` inside a list (`{v:?}` in Rust quotes each
element; escape sequences inside the string are not modelled). -/
def quoteDebug (s : String) : String := "\"" ++ s ++ "\""

/-- Rust `{v:?}` rendering of a `Vec`: bracketed, comma-joined. -/
def listDebug (elems : List String) : String :=
  "[" ++ String.intercalate ", " elems ++ "]"

/-- Embeds `impl fmt::Display for ContextValue`.  Booleans render as
`"True"`/`"False"` (matching Python `str`); lists render in Rust `Debug`
format.  Floats are rendered via `toString` on the rational model. -/
def ContextValue.display : ContextValue → String
  | .string s => s
  | .int i => toString i
  | .float q => toString q
  | .bool b => if b then "True" else "False"
  | .stringList v => listDebug (v.map quoteDebug)
  | .intList v => listDebug (v.map toString)
  | .floatList v => listDebug (v.map toString)
  | .boolList v => listDebug (v.map (fun b => if b then "true" else "false"))

/-! ## SHA-1 (the `sha1` crate as used by `FeatureContext::compute_id`)

Pure big-`Nat` implementation over byte lists; 32-bit words are `Nat`s kept
below `2^32` by explicit `% 4294967296`. -/

/-- Rotate a 32-bit word left by `n` bits. -/
def rotl32 (n x : Nat) : Nat :=
  ((x <<< n) ||| (x >>> (32 - n))) % 4294967296

/-- Big-endian byte rendering of `n` into exactly `k` bytes. -/
def bytesBE : Nat → Nat → List Nat
  | 0, _ => []
  | k + 1, n => bytesBE k (n / 256) ++ [n % 256]

/-- Big-endian integer value of a byte list (the value `int(hex_digest, 16)`
computes in the Python reference implementation). -/
def natOfBytesBE (bs : List Nat) : Nat := bs.foldl (fun a b => a * 256 + b) 0

/-- Split a list into `k` consecutive chunks of size `sz`. -/
def splitChunks (sz : Nat) : Nat → List Nat → List (List Nat)
  | 0, _ => []
  | k + 1, l => l.take sz :: splitChunks sz k (l.drop sz)

/-- SHA-1 padding: append `0x80`, zero bytes to 56 mod 64, then the 64-bit
big-endian bit length. -/
def sha1pad (msg : List Nat) : List Nat :=
  let len := msg.length
  let zeros := (119 - len % 64) % 64
  msg ++ [0x80] ++ List.replicate zeros 0 ++ bytesBE 8 (8 * len)

/-- Extend the 16 message-schedule words by `k` further words. -/
def extendW : Nat → Array Nat → Array Nat
  | 0, w => w
  | k + 1, w =>
    let n := w.size
    let x := rotl32 1
      ((w.getD (n - 3) 0) ^^^ (w.getD (n - 8) 0) ^^^ (w.getD (n - 14) 0) ^^^ (w.getD (n - 16) 0))
    extendW k (w.push x)

/-- SHA-1 round function (bitwise complement on 32 bits is `^^^ 0xFFFFFFFF`). -/
def sha1f (i b c d : Nat) : Nat :=
  if i < 20 then (b &&& c) ||| ((b ^^^ 4294967295) &&& d)
  else if i < 40 then b ^^^ c ^^^ d
  else if i < 60 then (b &&& c) ||| (b &&& d) ||| (c &&& d)
  else b ^^^ c ^^^ d

/-- SHA-1 round constants. -/
def sha1k (i : Nat) : Nat :=
  if i < 20 then 0x5A827999
  else if i < 40 then 0x6ED9EBA1
  else if i < 60 then 0x8F1BBCDC
  else 0xCA62C1D6

/-- One SHA-1 round on the five-word working state. -/
def sha1step (w : Array Nat) (st : Nat × Nat × Nat × Nat × Nat) (i : Nat) :
    Nat × Nat × Nat × Nat × Nat :=
  let (a, b, c, d, e) := st
  let temp := (rotl32 5 a + sha1f i b c d + e + sha1k i + w.getD i 0) % 4294967296
  (temp, a, rotl32 30 b, c, d)

/-- Compress one 64-byte block into the running hash state. -/
def processBlock (h : List Nat) (block : List Nat) : List Nat :=
  let ws := (splitChunks 4 16 block).map natOfBytesBE
  let w := extendW 64 ws.toArray
  let st := (List.range 80).foldl (sha1step w)
    (h.getD 0 0, h.getD 1 0, h.getD 2 0, h.getD 3 0, h.getD 4 0)
  let (a, b, c, d, e) := st
  [(h.getD 0 0 + a) % 4294967296, (h.getD 1 0 + b) % 4294967296,
   (h.getD 2 0 + c) % 4294967296, (h.getD 3 0 + d) % 4294967296,
   (h.getD 4 0 + e) % 4294967296]

/-- SHA-1 of a byte list: the 20-byte digest. -/
def sha1 (msg : List Nat) : List Nat :=
  let padded := sha1pad msg
  let blocks := splitChunks 64 (padded.length / 64) padded
  let h := blocks.foldl processBlock
    [0x67452301, 0xEFCDAB89, 0x98BADCFE, 0x10325476, 0xC3D2E1F0]
  (h.map (bytesBE 4)).flatten

/-- UTF-8 encoding of one character (`str::as_bytes` on the Rust side). -/
def charUtf8 (c : Char) : List Nat :=
  let n := c.toNat
  if n < 128 then [n]
  else if n < 2048 then [192 + n / 64, 128 + n % 64]
  else if n < 65536 then [224 + n / 4096, 128 + (n / 64) % 64, 128 + n % 64]
  else [240 + n / 262144, 128 + (n / 4096) % 64, 128 + (n / 64) % 64, 128 + n % 64]

/-- UTF-8 bytes of a string. -/
def strBytes (s : String) : List Nat := s.data.flatMap charUtf8

/-! ## FeatureContext (`clients/rust/src/features.rs`)

The `cached_id : AtomicU8` memoisation slot is dropped: the cache is
invalidated on every mutation and `compute_id` is pure, so `id()` always
returns `compute_id()`'s value; claims here are about that value. -/

structure FeatureContext where
  data : List (String × ContextValue)
  identity_fields : List String

/-- Insertion sort step for lexicographic string order (`keys.sort()`). -/
def insertSorted (x : String) : List String → List String
  | [] => [x]
  | y :: ys => if x ≤ y then x :: y :: ys else y :: insertSorted x ys

/-- Lexicographic sort of strings, the semantics of `Vec::sort`. -/
def sortStrings (l : List String) : List String := l.foldr insertSorted []

/-- The empty context (`FeatureContext::new`). -/
def FeatureContext.new : FeatureContext := ⟨[], []⟩

/-- Embeds `FeatureContext::insert` (overwrite; cache reset is dropped). -/
def FeatureContext.insert (ctx : FeatureContext) (key : String) (v : ContextValue) :
    FeatureContext :=
  { ctx with data := ctx.data.filter (fun p => p.1 ≠ key) ++ [(key, v)] }

/-- Embeds `FeatureContext::identity_fields` (stores the names sorted). -/
def FeatureContext.set_identity_fields (ctx : FeatureContext) (fields : List String) :
    FeatureContext :=
  { ctx with identity_fields := sortStrings fields }

/-- Embeds `FeatureContext::get`. -/
def FeatureContext.get (ctx : FeatureContext) (key : String) : Option ContextValue :=
  alookup ctx.data key

/-- The `:`-joined canonical rendering hashed by `compute_id`: values of the
identity fields if set, else of all present keys in sorted order. -/
def FeatureContext.id_string (ctx : FeatureContext) : String :=
  let fields :=
    if ctx.identity_fields.isEmpty then sortStrings (ctx.data.map (·.1))
    else ctx.identity_fields
  let parts := fields.filterMap (fun f => (alookup ctx.data f).map ContextValue.display)
  String.intercalate ":" parts

/-- Embeds `FeatureContext::compute_id`: SHA-1 the id string's UTF-8 bytes,
then reduce the 20-byte digest mod 100 by the iterative big-endian fold. -/
def FeatureContext.compute_id (ctx : FeatureContext) : Nat :=
  let hash := sha1 (strBytes ctx.id_string)
  hash.foldl (fun acc b => (acc * 256 + b) % 100) 0

/-- Embeds `FeatureContext::id` (memoisation dropped, see above). -/
def FeatureContext.id (ctx : FeatureContext) : Nat := ctx.compute_id

/-! ## Feature configuration data (`features.rs`, serde structs) -/

inductive OperatorKind where
  | In : OperatorKind
  | NotIn : OperatorKind
  | Contains : OperatorKind
  | NotContains : OperatorKind
  | Equals : OperatorKind
  | NotEquals : OperatorKind

structure OperatorData where
  kind : OperatorKind
  value : Json

structure ConditionData where
  property : String
  operator : OperatorData

/-- Rollout is a `u8` in the source (serde default 100), modelled as `Nat`. -/
structure SegmentData where
  name : String
  rollout : Nat
  conditions : List ConditionData

structure FeatureData where
  enabled : Bool
  segments : List SegmentData

/-! ## Condition evaluation (`features.rs`) -/

/-- Characterwise model of `str::to_lowercase` (every string a claim here
touches is ASCII, where the two coincide). -/
def toLowercase (s : String) : String := String.mk (s.data.map Char.toLower)

/-- The list-variant test `matches!(prop, StringList(_) | IntList(_) | FloatList(_) | BoolList(_))`. -/
def ContextValue.isList : ContextValue → Bool
  | .stringList _ => true
  | .intList _ => true
  | .floatList _ => true
  | .boolList _ => true
  | _ => false

/-- Embeds `scalar_eq`: case-insensitive string equality, exact equality for
the other scalar types, `false` on any type mismatch or list value. -/
def scalar_eq (prop : ContextValue) (json_val : Json) : Bool :=
  match prop with
  | .string s => (json_val.as_str.map (fun v => toLowercase s == toLowercase v)).getD false
  | .int i => (json_val.as_i64.map (fun v => i == v)).getD false
  | .float f => (json_val.as_f64.map (fun v => f == v)).getD false
  | .bool b => (json_val.as_bool.map (fun v => b == v)).getD false
  | _ => false

/-- Embeds `evaluate_in`: operator value must be an array, property a scalar. -/
def evaluate_in (prop : Option ContextValue) (operator_value : Json) : Bool :=
  match prop with
  | none => false
  | some p =>
    if p.isList then false
    else
      match operator_value.as_array with
      | none => false
      | some arr => arr.any (fun item => scalar_eq p item)

/-- Embeds `evaluate_contains`: operator value a scalar, property a list. -/
def evaluate_contains (prop : Option ContextValue) (operator_value : Json) : Bool :=
  match prop with
  | none => false
  | some (.stringList list) =>
    (operator_value.as_str.map
      (fun s => list.any (fun item => toLowercase item == toLowercase s))).getD false
  | some (.intList list) => (operator_value.as_i64.map (fun n => list.contains n)).getD false
  | some (.floatList list) => (operator_value.as_f64.map (fun n => list.contains n)).getD false
  | some (.boolList list) => (operator_value.as_bool.map (fun b => list.contains b)).getD false
  | some _ => false

/-- Embeds `evaluate_equals`. -/
def evaluate_equals (prop : Option ContextValue) (operator_value : Json) : Bool :=
  match prop with
  | none => false
  | some p => scalar_eq p operator_value

/-- Embeds `ConditionData::evaluate`: look the property up in the context and
dispatch on the operator kind (`NOT_*` kinds negate their base operator). -/
def ConditionData.evaluate (c : ConditionData) (ctx : FeatureContext) : Bool :=
  let prop := ctx.get c.property
  match c.operator.kind with
  | .In => evaluate_in prop c.operator.value
  | .NotIn => !evaluate_in prop c.operator.value
  | .Contains => evaluate_contains prop c.operator.value
  | .NotContains => !evaluate_contains prop c.operator.value
  | .Equals => evaluate_equals prop c.operator.value
  | .NotEquals => !evaluate_equals prop c.operator.value

/-! ## Segment and feature evaluation (`features.rs`) -/

/-- The early-return loop of `SegmentData::all_conditions_match`. -/
def conditionsLoop (ctx : FeatureContext) : List ConditionData → Bool
  | [] => true
  | c :: rest => if c.evaluate ctx then conditionsLoop ctx rest else false

/-- Embeds `SegmentData::all_conditions_match`. -/
def SegmentData.all_conditions_match (s : SegmentData) (ctx : FeatureContext) : Bool :=
  conditionsLoop ctx s.conditions

/-- Embeds `SegmentData::in_rollout`: `0` never, `100` always, otherwise the
inclusive bucket test `ctx.id() <= rollout`. -/
def SegmentData.in_rollout (s : SegmentData) (ctx : FeatureContext) : Bool :=
  if s.rollout = 0 then false
  else if s.rollout = 100 then true
  else decide (ctx.id ≤ s.rollout)

/-- The segment scan of `FeatureData::evaluate`: first segment that both
matches and is in rollout wins; a matching segment not in rollout does not
stop the scan. -/
def segmentsLoop (ctx : FeatureContext) : List SegmentData → Bool
  | [] => false
  | s :: rest =>
    if s.all_conditions_match ctx then
      if s.in_rollout ctx then true else segmentsLoop ctx rest
    else segmentsLoop ctx rest

/-- Embeds `FeatureData::evaluate` (debug logging dropped): `false` when
disabled, otherwise the segment scan. -/
def FeatureData.evaluate (fd : FeatureData) (ctx : FeatureContext) : Bool :=
  if !fd.enabled then false else segmentsLoop ctx fd.segments

/-! ## Validation crate (`sentry-options-validation/src/lib.rs`)

File-system paths are carried as plain strings; the I/O half of loading
(reading the file, parsing JSON text) is outside the embedding, which starts
from the parsed `Json` document. -/

inductive ValidationError where
  | SchemaError (file : String) (message : String) : ValidationError
  | ValueError (ns : String) (key : String) (message : String) : ValidationError
  | TypeMismatch (ns : String) (key : String) (expected : String) (actual : String) : ValidationError
  | UnknownNamespace (ns : String) : ValidationError
  | UnsupportedType (type_name : String) : ValidationError
  | FileRead (message : String) : ValidationError
  | JSONParse (message : String) : ValidationError

inductive OptionType where
  | str : OptionType
  | int : OptionType
  | float : OptionType
  | bool : OptionType

/-- Embeds `OptionType::from_str`. -/
def OptionType.from_str (s : String) : Except ValidationError OptionType :=
  if s = "str" then .ok .str
  else if s = "int" then .ok .int
  else if s = "float" then .ok .float
  else if s = "bool" then .ok .bool
  else .error (.UnsupportedType s)

/-- Embeds `OptionType::to_rust_type`. -/
def OptionType.to_rust_type : OptionType → String
  | .str => "String"
  | .int => "i64"
  | .float => "f64"
  | .bool => "bool"

/-- Embeds `OptionType::is_valid`: does a JSON value have this runtime type. -/
def OptionType.is_valid (t : OptionType) (v : Json) : Bool :=
  match t with
  | .str => v.is_string
  | .int => v.is_i64
  | .float => v.is_f64
  | .bool => v.is_boolean

/-- Embeds `value_type_name` (the `u64`-only "number" arm is unreachable in
the model, which has no `u64`-beyond-`i64` numbers). -/
def value_type_name : Json → String
  | .null => "null"
  | .bool _ => "bool"
  | .intNum _ => "int"
  | .floatNum _ => "float"
  | .str _ => "string"
  | .arr _ => "array"
  | .obj _ => "object"

/-- Embeds `OptionSchema` (`option_type`, `default`, optional `description`). -/
structure OptionSchema where
  option_type : String
  default : Json
  description : Option String

/-- Embeds `OptionSchema::validate`: parse the declared type, then check the
value's runtime type against it. -/
def OptionSchema.validate (os : OptionSchema) (ns key : String) (value : Json) :
    Except ValidationError Unit :=
  match OptionType.from_str os.option_type with
  | .error _ => .error (.ValueError ns key ("Unknown type: " ++ os.option_type))
  | .ok schema_type =>
    if schema_type.is_valid value then .ok ()
    else .error (.TypeMismatch ns key schema_type.to_rust_type (value_type_name value))

/-- Embeds `NamespaceSchema` (`version` plus the option table). -/
structure NamespaceSchema where
  version : String
  options : List (String × OptionSchema)

/-- Embeds `SchemaRegistry::validate_option_definition`: the option must be a
JSON object declaring a supported `option_type` and possessing a `default`
field.  (Note: the default's own JSON type is not inspected.) -/
def SchemaRegistry.validate_option_definition (key : String) (option : Json) (file : String) :
    Except ValidationError Unit :=
  match option.as_object with
  | none => .error (.SchemaError file ("Option " ++ key ++ " must be a JSON object"))
  | some option_obj =>
    match alookup option_obj "option_type" with
    | none =>
      .error (.SchemaError file ("Option " ++ key ++ " missing required option_type field"))
    | some type_value =>
      match type_value.as_str with
      | none =>
        .error (.SchemaError file ("Option " ++ key ++ " option_type field must be a string"))
      | some type_str =>
        if !(["str", "int", "float", "bool"].contains type_str) then
          .error (.SchemaError file ("Option " ++ key ++ " has unsupported type: " ++ type_str))
        else if (alookup option_obj "default").isNone then
          .error (.SchemaError file ("Option " ++ key ++ " missing required default field"))
        else .ok ()

/-- Embeds `SchemaRegistry::validate_has_version`. -/
def SchemaRegistry.validate_has_version (obj : List (String × Json)) (file : String) :
    Except ValidationError Unit :=
  if (alookup obj "version").isSome then .ok ()
  else .error (.SchemaError file "Missing required version field")

/-- The per-entry loop of `validate_has_options` (first failure aborts). -/
def validateOptionEntries (file : String) :
    List (String × Json) → Except ValidationError Unit
  | [] => .ok ()
  | (key, option) :: rest =>
    match SchemaRegistry.validate_option_definition key option file with
    | .error e => .error e
    | .ok _ => validateOptionEntries file rest

/-- Embeds `SchemaRegistry::validate_has_options`. -/
def SchemaRegistry.validate_has_options (obj : List (String × Json)) (file : String) :
    Except ValidationError Unit :=
  match alookup obj "options" with
  | none => .error (.SchemaError file "Missing required options field")
  | some options =>
    match options.as_object with
    | none => .error (.SchemaError file "options field must be a JSON object")
    | some options_obj => validateOptionEntries file options_obj

/-- Embeds `SchemaRegistry::validate_schema_structure`. -/
def SchemaRegistry.validate_schema_structure (schema : Json) (path : String) :
    Except ValidationError Unit :=
  match schema.as_object with
  | none => .error (.SchemaError path "Schema must be a JSON object")
  | some obj =>
    match SchemaRegistry.validate_has_version obj path with
    | .error e => .error e
    | .ok _ => SchemaRegistry.validate_has_options obj path

/-- Serde deserialization of one `OptionSchema` (derived `Deserialize`:
required `option_type : String` and `default : Value`, optional
`description`). -/
def parseOptionSchema (j : Json) : Option OptionSchema :=
  match j.as_object with
  | none => none
  | some kvs =>
    match (alookup kvs "option_type").bind Json.as_str with
    | none => none
    | some ts =>
      match alookup kvs "default" with
      | none => none
      | some d =>
        match alookup kvs "description" with
        | none => some ⟨ts, d, none⟩
        | some .null => some ⟨ts, d, none⟩
        | some (.str s) => some ⟨ts, d, some s⟩
        | some _ => none

/-- Serde deserialization of the option table (any entry failing fails the
whole map). -/
def parseOptionEntries : List (String × Json) → Option (List (String × OptionSchema))
  | [] => some []
  | (key, j) :: rest =>
    match parseOptionSchema j with
    | none => none
    | some os =>
      match parseOptionEntries rest with
      | none => none
      | some tail => some ((key, os) :: tail)

/-- Serde deserialization of a `NamespaceSchema` document. -/
def parseNamespaceSchema (j : Json) : Option NamespaceSchema :=
  match j.as_object with
  | none => none
  | some kvs =>
    match (alookup kvs "version").bind Json.as_str with
    | none => none
    | some version =>
      match (alookup kvs "options").bind Json.as_object with
      | none => none
      | some optionsJson =>
        match parseOptionEntries optionsJson with
        | none => none
        | some options => some ⟨version, options⟩

/-- Embeds `SchemaRegistry::load_schema` downstream of the file read and JSON
text parse: structural validation, then serde deserialization. -/
def SchemaRegistry.load_schema_value (schema_value : Json) (path : String) :
    Except ValidationError NamespaceSchema :=
  match SchemaRegistry.validate_schema_structure schema_value path with
  | .error e => .error e
  | .ok _ =>
    match parseNamespaceSchema schema_value with
    | none => .error (.SchemaError path "Failed to parse schema")
    | some s => .ok s

/-! ## The Options store (`clients/rust/src/lib.rs`)

The registry is its namespace-lookup function; the `RwLock`-protected values
snapshot is its (namespace, key) lookup function.  The background
`ValuesWatcher` (pure I/O) is outside the embedding. -/

structure SchemaRegistry where
  schemas : String → Option NamespaceSchema

/-- Embeds the registry's namespace lookup (`get_schema`; the client calls it
`get`). -/
def SchemaRegistry.get (r : SchemaRegistry) (ns : String) : Option NamespaceSchema :=
  r.schemas ns

/-- Modelled from the spec: `NamespaceSchema::get_default`, called by
`Options::get` but not itself under src (only this caller is); per spec §4.1
`get_default` returns the declared option's default value, `None` when the
key is not declared. -/
def NamespaceSchema.get_default (s : NamespaceSchema) (key : String) : Option Json :=
  (alookup s.options key).map (·.default)

inductive OptionsError where
  | UnknownNamespace (ns : String) : OptionsError
  | UnknownOption (ns : String) (key : String) : OptionsError
  | Schema (e : ValidationError) : OptionsError
  | AlreadyInitialized : OptionsError

structure Options where
  registry : SchemaRegistry
  values : String → String → Option Json

/-- Embeds `Options::get`: unknown namespace fails, then the stored value,
then the schema default, else `UnknownOption`. -/
def Options.get (o : Options) (ns key : String) : Except OptionsError Json :=
  match o.registry.get ns with
  | none => .error (.UnknownNamespace ns)
  | some schema =>
    match o.values ns key with
    | some v => .ok v
    | none =>
      match schema.get_default key with
      | some d => .ok d
      | none => .error (.UnknownOption ns key)

/-! ## Test overrides (`clients/rust/src/testing.rs`)

The thread-local `OVERRIDES: HashMap<String, HashMap<String, Value>>` is
modelled by its lookup function (all observations of it go through
`get_override`); inserting sets the point, removing clears it. -/

def OverrideMap : Type := String → String → Option Json

def OverrideMap.empty : OverrideMap := fun _ _ => none

/-- Embeds `set_override` (insert into the nested map). -/
def OverrideMap.set (m : OverrideMap) (ns key : String) (v : Json) : OverrideMap :=
  fun ns' key' => if ns' = ns ∧ key' = key then some v else m ns' key'

/-- Embeds `clear_override` / the removal arm of the guard (remove from the
nested map when present). -/
def OverrideMap.clear (m : OverrideMap) (ns key : String) : OverrideMap :=
  fun ns' key' => if ns' = ns ∧ key' = key then none else m ns' key'

/-- Embeds `get_override`. -/
def OverrideMap.get_override (m : OverrideMap) (ns key : String) : Option Json :=
  m ns key

/-- Embeds `OverrideGuard` (the saved previous-value-or-absence records, in
application order). -/
structure OverrideGuard where
  previous : List (String × String × Option Json)

/-- One iteration of the guard's restore loop: re-insert a saved value, or
remove the key when it previously had none. -/
def restoreOne (acc : OverrideMap) (e : String × String × Option Json) : OverrideMap :=
  match e.2.2 with
  | some v => acc.set e.1 e.2.1 v
  | none => acc.clear e.1 e.2.1

/-- The guard's restore loop over its saved records. -/
def replayRecords (s : OverrideMap) : List (String × String × Option Json) → OverrideMap
  | [] => s
  | r :: t => replayRecords (restoreOne s r) t

/-- Embeds `OverrideGuard::drop`: replay the saved records front-to-back
(`drain(..)` iterates in application order), re-inserting a saved value or
removing a key that had none. -/
def OverrideGuard.drop (g : OverrideGuard) (m : OverrideMap) : OverrideMap :=
  replayRecords m g.previous

/-- Modelled from the spec: `Options::validate_override`, called by
`override_options` but not itself under src (only this caller and its
integration tests are).  Per spec §4.1/§5.4 it validates one entry against
the SchemaRegistry: the namespace must be registered, the key declared, and
the value's type must match — using the validation crate's
`OptionSchema::validate` (which is under src). -/
def Options.validate_override (o : Options) (ns key : String) (v : Json) :
    Except OptionsError Unit :=
  match o.registry.get ns with
  | none => .error (.UnknownNamespace ns)
  | some schema =>
    match alookup schema.options key with
    | none => .error (.Schema (.ValueError ns key "Unknown option (not defined in schema)"))
    | some os =>
      match os.validate ns key v with
      | .error e => .error (.Schema e)
      | .ok _ => .ok ()

/-- The validation loop of `override_options` (first failure aborts, nothing
has been applied yet). -/
def validateEntries (o : Options) : List (String × String × Json) → Except OptionsError Unit
  | [] => .ok ()
  | (ns, key, v) :: rest =>
    match o.validate_override ns key v with
    | .error e => .error e
    | .ok _ => validateEntries o rest

/-- The application loop of `override_options`: record each entry's previous
value (or absence), then insert the override; returns the guard records in
application order together with the new state. -/
def applyOverrides (m : OverrideMap) :
    List (String × String × Json) → List (String × String × Option Json) × OverrideMap
  | [] => ([], m)
  | (ns, key, v) :: rest =>
    let r := applyOverrides (m.set ns key v) rest
    ((ns, key, m.get_override ns key) :: r.1, r.2)

/-- Embeds `override_options`: when the global store is initialized, validate
every entry first and abort on the first failure (applying nothing);
otherwise skip validation; then apply all entries, saving prior state into
the returned guard. -/
def override_options (global : Option Options) (m : OverrideMap)
    (overrides : List (String × String × Json)) :
    Except OptionsError (OverrideGuard × OverrideMap) :=
  match global with
  | some opts =>
    match validateEntries opts overrides with
    | .error e => .error e
    | .ok _ =>
      let r := applyOverrides m overrides
      .ok (⟨r.1⟩, r.2)
  | none =>
    let r := applyOverrides m overrides
    .ok (⟨r.1⟩, r.2)

/-- Modelled from the spec: the override-consulting read path of
`Options::get` (spec §2: "OverrideStore is consulted first → else ValuesStore
→ else SchemaRegistry default").  The interception itself is not under src —
only its integration tests are — so the spec's order is modelled: the calling
thread's override store is checked before the plain store read. -/
def Options.get_with_overrides (o : Options) (ov : OverrideMap) (ns key : String) :
    Except OptionsError Json :=
  match ov.get_override ns key with
  | some v => .ok v
  | none => o.get ns key

/-! ## FeatureChecker (`clients/rust/src/lib.rs`)

`serde_json::from_str::<FeatureData>` is abstracted as a `parse` parameter:
every claim about `has` settled here holds for all parsers. -/

/-- Embeds `FeatureChecker::has`: read `features.{name}` through the options
store; any read error, a non-string stored value, or a parse failure yields
`false`; otherwise evaluate the parsed feature data against the context. -/
def FeatureChecker.has (o : Options) (ns : String)
    (parse : String → Option FeatureData) (feature_name : String)
    (ctx : FeatureContext) : Bool :=
  let key := "features." ++ feature_name
  match o.get ns key with
  | .error _ => false
  | .ok value =>
    match value.as_str with
    | none => false
    | some json_str =>
      match parse json_str with
      | none => false
      | some feature_data => feature_data.evaluate ctx

/-! ## Helper lemmas -/

/-- The mod-100 fold and the plain base-256 fold agree modulo 100, for any
accumulator. -/
theorem foldl_mod100 (l : List Nat) : ∀ a : Nat,
    l.foldl (fun acc b => (acc * 256 + b) % 100) (a % 100)
      = l.foldl (fun acc b => acc * 256 + b) a % 100 := by
  induction l with
  | nil => intro a; rfl
  | cons b t ih =>
    intro a
    simp only [List.foldl_cons]
    have h : (a % 100 * 256 + b) % 100 = (a * 256 + b) % 100 :=
      ((Nat.mod_modEq a 100).mul_right 256).add_right b
    rw [h]
    exact ih (a * 256 + b)

/-- The early-return condition loop is the conjunction over all conditions. -/
theorem conditionsLoop_eq_all (ctx : FeatureContext) (l : List ConditionData) :
    conditionsLoop ctx l = l.all (fun c => c.evaluate ctx) := by
  induction l with
  | nil => rfl
  | cons c t ih => cases h : c.evaluate ctx <;> simp [conditionsLoop, h, ih]

/-- The segment scan returns true iff some segment both matches and is in
rollout (a matching segment out of rollout does not stop the scan). -/
theorem segmentsLoop_eq_any (ctx : FeatureContext) (l : List SegmentData) :
    segmentsLoop ctx l
      = l.any (fun s => s.all_conditions_match ctx && s.in_rollout ctx) := by
  induction l with
  | nil => rfl
  | cons s t ih =>
    cases h1 : s.all_conditions_match ctx <;> cases h2 : s.in_rollout ctx <;>
      simp [segmentsLoop, h1, h2, ih]

/-! ## Claims -/

/-- C2: `FeatureContext::id` equals the Python reference `int(hex_digest, 16)
% 100`: the iterative fold `acc = (acc*256 + byte) % 100` over any digest
equals the digest's big-endian integer value mod 100, `id()` is that value
for the SHA-1 of the context's `:`-joined canonical rendering, and the two
regression fixtures hold: the empty context has id 5 and a context with
identity field "foo" bound to the string "bar" has id 93. -/
theorem claim_C2 :
    (∀ digest : List Nat,
        digest.foldl (fun acc b => (acc * 256 + b) % 100) 0 = natOfBytesBE digest % 100)
    ∧ (∀ ctx : FeatureContext,
        ctx.id = natOfBytesBE (sha1 (strBytes ctx.id_string)) % 100)
    ∧ FeatureContext.new.id = 5
    ∧ ((FeatureContext.new.insert "foo" (.string "bar")).set_identity_fields ["foo"]).id
        = 93 := by
  have base : ∀ l : List Nat,
      l.foldl (fun acc b => (acc * 256 + b) % 100) 0 = natOfBytesBE l % 100 := by
    intro l
    have := foldl_mod100 l 0
    simpa [natOfBytesBE] using this
  refine ⟨base, ?_, by decide, by decide⟩
  intro ctx
  show ctx.compute_id = _
  unfold FeatureContext.compute_id
  exact base (sha1 (strBytes ctx.id_string))

/-- C3: for a segment whose conditions all match the context, `in_rollout`
decides the rollout: 0 is never in rollout, 100 always is, and any other
rollout value is in rollout exactly when `ctx.id() <= rollout`, an inclusive
comparison. -/
theorem claim_C3 : ∀ (s : SegmentData) (ctx : FeatureContext),
    s.all_conditions_match ctx = true →
    (s.rollout = 0 → s.in_rollout ctx = false)
    ∧ (s.rollout = 100 → s.in_rollout ctx = true)
    ∧ (s.rollout ≠ 0 → s.rollout ≠ 100 →
        (s.in_rollout ctx = true ↔ ctx.id ≤ s.rollout)) := by
  intro s ctx _
  unfold SegmentData.in_rollout
  refine ⟨fun h => by simp [h], fun h => by simp [h], fun h0 h100 => by simp [h0, h100]⟩

/-- Witness for C3 at concrete segments: the empty context (bucket id 5) is
in a 50% rollout, never in a 0% rollout, and always in a 100% rollout. -/
theorem claim_C3_witness :
    (SegmentData.mk "all" 50 []).in_rollout FeatureContext.new = true
    ∧ (SegmentData.mk "all" 0 []).in_rollout FeatureContext.new = false
    ∧ (SegmentData.mk "all" 100 []).in_rollout FeatureContext.new = true := by
  refine ⟨?_, ?_, ?_⟩
  · exact ((claim_C3 (SegmentData.mk "all" 50 []) FeatureContext.new rfl).2.2
      (by decide) (by decide)).mpr (by decide)
  · exact (claim_C3 (SegmentData.mk "all" 0 []) FeatureContext.new rfl).1 rfl
  · exact (claim_C3 (SegmentData.mk "all" 100 []) FeatureContext.new rfl).2.1 rfl

/-- C4: feature evaluation is a total boolean function: a disabled feature is
false regardless of segments; otherwise the result is true exactly when some
segment both matches (all of its conditions hold; an empty condition list
matches trivially) and is in rollout — a matching segment that is out of
rollout does not end the scan, and with no such segment the result is
false. -/
theorem claim_C4 : ∀ (fd : FeatureData) (ctx : FeatureContext),
    (fd.enabled = false → fd.evaluate ctx = false)
    ∧ fd.evaluate ctx
        = (fd.enabled && fd.segments.any (fun s => s.all_conditions_match ctx && s.in_rollout ctx))
    ∧ (∀ s : SegmentData, s.all_conditions_match ctx = s.conditions.all (fun c => c.evaluate ctx))
    ∧ (∀ nm r, (SegmentData.mk nm r []).all_conditions_match ctx = true) := by
  intro fd ctx
  refine ⟨fun h => by simp [FeatureData.evaluate, h], ?_, ?_, fun nm r => rfl⟩
  · cases he : fd.enabled <;> simp [FeatureData.evaluate, he, segmentsLoop_eq_any]
  · intro s; exact conditionsLoop_eq_all ctx s.conditions

/-- Witness for C4 at concrete features: a disabled feature with an
always-on segment is false, and an enabled feature whose first segment
matches out of rollout still reaches its second, in-rollout segment. -/
theorem claim_C4_witness :
    (FeatureData.mk false [SegmentData.mk "all" 100 []]).evaluate FeatureContext.new = false
    ∧ (FeatureData.mk true [SegmentData.mk "none" 0 [], SegmentData.mk "all" 100 []]).evaluate
        FeatureContext.new = true := by
  refine ⟨(claim_C4 _ FeatureContext.new).1 rfl, ?_⟩
  rw [(claim_C4 (FeatureData.mk true [SegmentData.mk "none" 0 [], SegmentData.mk "all" 100 []])
    FeatureContext.new).2.1]
  rfl

/-- `scalar_eq` against a string property holds exactly for a string JSON
value with the same lowercasing. -/
theorem scalar_eq_string_iff (s : String) (j : Json) :
    scalar_eq (.string s) j = true
      ↔ ∃ t, j.as_str = some t ∧ toLowercase s = toLowercase t := by
  cases j <;> simp [scalar_eq, Json.as_str, beq_iff_eq]

/-- C5: condition evaluation never errors and fails closed on shape
mismatches: an absent property makes each base operator false; IN is false on
a list-typed property; CONTAINS is false on a scalar property; string
comparisons (EQUALS, IN elements, CONTAINS elements) are case-insensitive;
and EQUALS across mismatched value categories — string/int/float/bool
property against a JSON value of a different scalar type, a list property, or
a JSON array operand — is false. -/
theorem claim_C5 :
    (∀ v : Json, evaluate_in none v = false
        ∧ evaluate_contains none v = false
        ∧ evaluate_equals none v = false)
    ∧ (∀ (p : ContextValue) (v : Json), p.isList = true → evaluate_in (some p) v = false)
    ∧ (∀ (p : ContextValue) (v : Json), p.isList = false → evaluate_contains (some p) v = false)
    ∧ (∀ s t : String, scalar_eq (.string s) (.str t) = true ↔ toLowercase s = toLowercase t)
    ∧ (∀ (s : String) (xs : List Json),
        evaluate_in (some (.string s)) (.arr xs) = true
          ↔ ∃ j ∈ xs, ∃ t, j.as_str = some t ∧ toLowercase s = toLowercase t)
    ∧ (∀ (l : List String) (t : String),
        evaluate_contains (some (.stringList l)) (.str t) = true
          ↔ ∃ x ∈ l, toLowercase x = toLowercase t)
    ∧ (∀ (s : String) (v : Json), v.as_str = none → scalar_eq (.string s) v = false)
    ∧ (∀ (i : Int) (v : Json), v.as_i64 = none → scalar_eq (.int i) v = false)
    ∧ (∀ (q : ℚ) (v : Json), v.as_f64 = none → scalar_eq (.float q) v = false)
    ∧ (∀ (b : Bool) (v : Json), v.as_bool = none → scalar_eq (.bool b) v = false)
    ∧ (∀ (p : ContextValue) (v : Json), p.isList = true → scalar_eq p v = false)
    ∧ (∀ (p : ContextValue) (xs : List Json), scalar_eq p (.arr xs) = false) := by
  refine ⟨fun v => ⟨rfl, rfl, rfl⟩, ?_, ?_, ?_, ?_, ?_, ?_, ?_, ?_, ?_, ?_, ?_⟩
  · intro p v h; simp [evaluate_in, h]
  · intro p v h; cases p <;> simp_all [ContextValue.isList, evaluate_contains]
  · intro s t; simpa [Json.as_str] using scalar_eq_string_iff s (.str t)
  · intro s xs
    simp [evaluate_in, ContextValue.isList, Json.as_array, List.any_eq_true,
      scalar_eq_string_iff]
  · intro l t
    simp [evaluate_contains, Json.as_str, List.any_eq_true, beq_iff_eq]
  · intro s v h; cases v <;> simp_all [scalar_eq, Json.as_str]
  · intro i v h; cases v <;> simp_all [scalar_eq, Json.as_i64]
  · intro q v h; cases v <;> simp_all [scalar_eq, Json.as_f64]
  · intro b v h; cases v <;> simp_all [scalar_eq, Json.as_bool]
  · intro p v h; cases p <;> simp_all [ContextValue.isList, scalar_eq]
  · intro p xs; cases p <;> rfl

/-- Witness for C5 at concrete inputs: IN on a list property is false,
CONTAINS on a scalar property is false, string EQUALS is case-insensitive,
int-vs-string EQUALS is false, CONTAINS over a string list is
case-insensitive. -/
theorem claim_C5_witness :
    evaluate_in (some (.stringList ["sentry"])) (.arr [.str "sentry"]) = false
    ∧ evaluate_contains (some (.string "sentry")) (.str "sentry") = false
    ∧ scalar_eq (.string "Sentry") (.str "sentry") = true
    ∧ scalar_eq (.int 42) (.str "42") = false
    ∧ evaluate_contains (some (.stringList ["sentry", "test"])) (.str "Sentry") = true := by
  obtain ⟨-, h2, h3, h4, -, h6, -, h8, -⟩ := claim_C5
  refine ⟨h2 _ _ rfl, h3 _ _ rfl, (h4 "Sentry" "sentry").mpr (by decide), h8 42 _ rfl, ?_⟩
  exact (h6 ["sentry", "test"] "Sentry").mpr ⟨"sentry", by simp, by decide⟩

/-! ## Concrete store used by witnesses -/

/-- A small concrete namespace schema: a bool option `enabled` (default
false), an int option `timeout` (default 30), and a string option
`features.raw` (default the empty string). -/
def demoSchema : NamespaceSchema :=
  ⟨"1.0",
   [("enabled", ⟨"bool", .bool false, none⟩),
    ("timeout", ⟨"int", .intNum 30, none⟩),
    ("features.raw", ⟨"str", .str "", none⟩)]⟩

/-- A concrete store over `demoSchema`: `enabled` has stored value `true`,
`timeout` has no stored value, and `features.raw` is (wrongly) stored as a
bare JSON number rather than a JSON string. -/
def demoOptions : Options :=
  ⟨⟨fun ns => if ns = "test" then some demoSchema else none⟩,
   fun ns key =>
     if ns = "test" ∧ key = "enabled" then some (.bool true)
     else if ns = "test" ∧ key = "features.raw" then some (.intNum 3)
     else none⟩

/-- C6: `Options::get` returns the stored value when one is present for a
registered namespace, else the schema default when the key is declared, else
fails with `UnknownOption`; an unregistered namespace fails with
`UnknownNamespace`. -/
theorem claim_C6 : ∀ (o : Options) (ns key : String),
    (o.registry.get ns = none → o.get ns key = .error (.UnknownNamespace ns))
    ∧ (∀ schema v, o.registry.get ns = some schema → o.values ns key = some v →
        o.get ns key = .ok v)
    ∧ (∀ schema d, o.registry.get ns = some schema → o.values ns key = none →
        schema.get_default key = some d → o.get ns key = .ok d)
    ∧ (∀ schema, o.registry.get ns = some schema → o.values ns key = none →
        schema.get_default key = none →
        o.get ns key = .error (.UnknownOption ns key)) := by
  intro o ns key
  refine ⟨fun h => by simp [Options.get, h], ?_, ?_, ?_⟩
  · intro schema v h1 h2; simp [Options.get, h1, h2]
  · intro schema d h1 h2 h3; simp [Options.get, h1, h2, h3]
  · intro schema h1 h2 h3; simp [Options.get, h1, h2, h3]

/-- Witness for C6 on the concrete store: stored value, schema default,
unknown option, unknown namespace. -/
theorem claim_C6_witness :
    demoOptions.get "test" "enabled" = .ok (.bool true)
    ∧ demoOptions.get "test" "timeout" = .ok (.intNum 30)
    ∧ demoOptions.get "test" "missing" = .error (.UnknownOption "test" "missing")
    ∧ demoOptions.get "unknown" "x" = .error (.UnknownNamespace "unknown") := by
  refine ⟨?_, ?_, ?_, ?_⟩
  · exact (claim_C6 demoOptions "test" "enabled").2.1 demoSchema (.bool true) rfl rfl
  · exact (claim_C6 demoOptions "test" "timeout").2.2.1 demoSchema (.intNum 30) rfl rfl rfl
  · exact (claim_C6 demoOptions "test" "missing").2.2.2 demoSchema rfl rfl rfl
  · exact (claim_C6 demoOptions "unknown" "x").1 rfl

/-- C1: the override-consulting read path (modelled from the spec, see
`Options.get_with_overrides`) consults the calling context's override store
first: a set override is returned outright — before the stored value or
schema default are considered — and with no override set the read falls back
to the plain `Options::get` chain (stored value, then default). -/
theorem claim_C1 : ∀ (o : Options) (ov : OverrideMap) (ns key : String),
    (∀ v, ov.get_override ns key = some v → o.get_with_overrides ov ns key = .ok v)
    ∧ (ov.get_override ns key = none →
        o.get_with_overrides ov ns key = o.get ns key) := by
  intro o ov ns key
  refine ⟨fun v h => ?_, fun h => ?_⟩
  · simp [Options.get_with_overrides, h]
  · simp [Options.get_with_overrides, h]

/-- Witness for C1 on the concrete store: an override shadows a present
stored value, and without overrides the read falls back to the stored value
and then the schema default. -/
theorem claim_C1_witness :
    demoOptions.get_with_overrides (OverrideMap.empty.set "test" "enabled" (.intNum 99))
      "test" "enabled" = .ok (.intNum 99)
    ∧ demoOptions.get_with_overrides OverrideMap.empty "test" "enabled" = .ok (.bool true)
    ∧ demoOptions.get_with_overrides OverrideMap.empty "test" "timeout" = .ok (.intNum 30) := by
  refine ⟨?_, ?_, ?_⟩
  · exact (claim_C1 demoOptions (OverrideMap.empty.set "test" "enabled" (.intNum 99))
      "test" "enabled").1 (.intNum 99) rfl
  · exact ((claim_C1 demoOptions OverrideMap.empty "test" "enabled").2 rfl).trans rfl
  · exact ((claim_C1 demoOptions OverrideMap.empty "test" "timeout").2 rfl).trans rfl

/-- C10: `FeatureChecker::has` fails closed before parsing: it returns false
whenever the underlying option read for `features.{name}` fails with any
error, and whenever the read succeeds but the stored JSON value is not a
string — for every parser. -/
theorem claim_C10 : ∀ (o : Options) (ns : String) (parse : String → Option FeatureData)
    (feature_name : String) (ctx : FeatureContext),
    (∀ e, o.get ns ("features." ++ feature_name) = .error e →
        FeatureChecker.has o ns parse feature_name ctx = false)
    ∧ (∀ v, o.get ns ("features." ++ feature_name) = .ok v → v.as_str = none →
        FeatureChecker.has o ns parse feature_name ctx = false) := by
  intro o ns parse feature_name ctx
  refine ⟨fun e h => ?_, fun v h1 h2 => ?_⟩
  · simp [FeatureChecker.has, h]
  · simp [FeatureChecker.has, h1, h2]

/-- Witness for C10 on the concrete store: an undeclared feature key (read
error) and a feature config stored as a bare number (non-string value) both
yield false, for a parser that would otherwise succeed. -/
theorem claim_C10_witness :
    FeatureChecker.has demoOptions "test"
      (fun _ => some (FeatureData.mk true [SegmentData.mk "all" 100 []])) "nope"
      FeatureContext.new = false
    ∧ FeatureChecker.has demoOptions "test"
      (fun _ => some (FeatureData.mk true [SegmentData.mk "all" 100 []])) "raw"
      FeatureContext.new = false := by
  refine ⟨?_, ?_⟩
  · exact (claim_C10 demoOptions "test" _ "nope" FeatureContext.new).1
      (.UnknownOption "test" "features.nope") rfl
  · exact (claim_C10 demoOptions "test" _ "raw" FeatureContext.new).2 (.intNum 3) rfl rfl

/-- The thread-local override state after an `override_options` call: the
new state on success, the untouched previous state when the call aborts. -/
def overrideStateAfter (m : OverrideMap)
    (r : Except OptionsError (OverrideGuard × OverrideMap)) : OverrideMap :=
  match r with
  | .ok (_, m') => m'
  | .error _ => m

/-- C7: `override_options` validates its whole batch against the schema
registry before applying anything: validation succeeds exactly when every
entry validates; on the first validation failure the call returns that error
and applies none of the entries (the override state is unchanged); on success
and whenever the global store is uninitialized (validation skipped) all
entries are applied. -/
theorem claim_C7 : ∀ (opts : Options) (m : OverrideMap)
    (ovs : List (String × String × Json)),
    (validateEntries opts ovs = .ok ()
      ↔ ∀ e ∈ ovs, opts.validate_override e.1 e.2.1 e.2.2 = .ok ())
    ∧ (∀ err, validateEntries opts ovs = .error err →
        override_options (some opts) m ovs = .error err
        ∧ overrideStateAfter m (override_options (some opts) m ovs) = m)
    ∧ (validateEntries opts ovs = .ok () →
        override_options (some opts) m ovs
          = .ok (⟨(applyOverrides m ovs).1⟩, (applyOverrides m ovs).2))
    ∧ override_options none m ovs
        = .ok (⟨(applyOverrides m ovs).1⟩, (applyOverrides m ovs).2) := by
  intro opts m ovs
  refine ⟨?_, ?_, ?_, rfl⟩
  · induction ovs with
    | nil => simp [validateEntries]
    | cons e t ih =>
      obtain ⟨ns, key, v⟩ := e
      cases h : opts.validate_override ns key v with
      | error err => simp [validateEntries, h]
      | ok u => cases u; simp [validateEntries, h, ih]
  · intro err h
    refine ⟨?_, ?_⟩ <;> simp [override_options, h, overrideStateAfter]
  · intro h
    simp [override_options, h]

/-- A batch with a valid entry followed by a type-mismatched entry. -/
def badBatch : List (String × String × Json) :=
  [("test", "enabled", .bool true), ("test", "timeout", .str "no")]

/-- Witness for C7 on the concrete store: the mixed batch is rejected as a
whole with the second entry's type mismatch and no override is applied, while
with no initialized store the same batch applies unconditionally. -/
theorem claim_C7_witness :
    override_options (some demoOptions) OverrideMap.empty badBatch
      = .error (.Schema (.TypeMismatch "test" "timeout" "i64" "string"))
    ∧ overrideStateAfter OverrideMap.empty
        (override_options (some demoOptions) OverrideMap.empty badBatch)
        "test" "enabled" = none
    ∧ override_options none OverrideMap.empty badBatch
      = .ok (⟨[("test", "enabled", none), ("test", "timeout", none)]⟩,
          (OverrideMap.empty.set "test" "enabled" (.bool true)).set
            "test" "timeout" (.str "no")) := by
  have h := claim_C7 demoOptions OverrideMap.empty badBatch
  refine ⟨(h.2.1 _ rfl).1, ?_, (h.2.2.2).trans rfl⟩
  exact (congrFun (congrFun ((h.2.1 _ rfl).2) "test") "enabled").trans rfl

/-! ## Override-map lemmas (for C8) -/

theorem get_set_self (m : OverrideMap) (ns key : String) (v : Json) :
    (m.set ns key v).get_override ns key = some v := by
  simp [OverrideMap.set, OverrideMap.get_override]

theorem get_set_other (m : OverrideMap) (ns key ns' key' : String) (v : Json)
    (h : ¬(ns' = ns ∧ key' = key)) :
    (m.set ns key v).get_override ns' key' = m.get_override ns' key' := by
  simp [OverrideMap.set, OverrideMap.get_override, h]

theorem restoreOne_get_self (s : OverrideMap) (ns key : String) (p : Option Json) :
    (restoreOne s (ns, key, p)).get_override ns key = p := by
  cases p with
  | none => simp [restoreOne, OverrideMap.clear, OverrideMap.get_override]
  | some v => simp [restoreOne, OverrideMap.set, OverrideMap.get_override]

theorem restoreOne_get_other (s : OverrideMap) (e : String × String × Option Json)
    (ns' key' : String) (h : ¬(ns' = e.1 ∧ key' = e.2.1)) :
    (restoreOne s e).get_override ns' key' = s.get_override ns' key' := by
  obtain ⟨ns, key, p⟩ := e
  simp only [] at h
  cases p with
  | none => simp [restoreOne, OverrideMap.clear, OverrideMap.get_override, h]
  | some v => simp [restoreOne, OverrideMap.set, OverrideMap.get_override, h]

/-- The (namespace, key) pairs of a guard's saved records. -/
def recKeys (recs : List (String × String × Option Json)) : List (String × String) :=
  recs.map (fun r => (r.1, r.2.1))

/-- The (namespace, key) pairs of an override batch. -/
def ovKeys (ovs : List (String × String × Json)) : List (String × String) :=
  ovs.map (fun e => (e.1, e.2.1))

/-- Replaying records does not touch keys outside the record list. -/
theorem replay_get_notin (recs : List (String × String × Option Json)) :
    ∀ (s : OverrideMap) (ns key : String), (ns, key) ∉ recKeys recs →
      (replayRecords s recs).get_override ns key = s.get_override ns key := by
  induction recs with
  | nil => intro s ns key _; rfl
  | cons r t ih =>
    intro s ns key h
    have hmem : ¬((ns, key) = (r.1, r.2.1) ∨ (ns, key) ∈ recKeys t) := by
      simpa [recKeys] using h
    have h1 := (not_or.mp hmem).1
    have h2 : (ns, key) ∉ recKeys t := (not_or.mp hmem).2
    show (replayRecords (restoreOne s r) t).get_override ns key = _
    rw [ih (restoreOne s r) ns key h2]
    refine restoreOne_get_other s r ns key ?_
    rintro ⟨hc1, hc2⟩
    exact h1 (by simp [hc1, hc2])

/-- With pairwise distinct record keys, replaying leaves each record's key at
exactly its saved value-or-absence. -/
theorem replay_get_mem (recs : List (String × String × Option Json)) :
    ∀ s : OverrideMap, (recKeys recs).Nodup →
      ∀ r ∈ recs, (replayRecords s recs).get_override r.1 r.2.1 = r.2.2 := by
  induction recs with
  | nil => intro s _ r hr; cases hr
  | cons hd t ih =>
    intro s hnd r hr
    have hnd' : ((hd.1, hd.2.1) ∉ recKeys t) ∧ (recKeys t).Nodup := by
      simpa [recKeys, List.nodup_cons] using hnd
    rcases List.mem_cons.mp hr with hh | ht
    · subst hh
      show (replayRecords (restoreOne s r) t).get_override r.1 r.2.1 = r.2.2
      rw [replay_get_notin t (restoreOne s r) r.1 r.2.1 hnd'.1]
      obtain ⟨ns, key, p⟩ := r
      exact restoreOne_get_self s ns key p
    · show (replayRecords (restoreOne s hd) t).get_override r.1 r.2.1 = r.2.2
      exact ih (restoreOne s hd) hnd'.2 r ht

/-- With pairwise distinct batch keys, each saved record holds the key's
value-or-absence in the pre-application state. -/
theorem applyOverrides_records (ovs : List (String × String × Json)) :
    ∀ m : OverrideMap, (ovKeys ovs).Nodup →
      (applyOverrides m ovs).1
        = ovs.map (fun e => (e.1, e.2.1, m.get_override e.1 e.2.1)) := by
  induction ovs with
  | nil => intro m _; rfl
  | cons e t ih =>
    intro m hnd
    obtain ⟨ns, key, v⟩ := e
    have hnd' : ((ns, key) ∉ ovKeys t) ∧ (ovKeys t).Nodup := by
      simpa [ovKeys, List.nodup_cons] using hnd
    show (ns, key, m.get_override ns key) :: (applyOverrides (m.set ns key v) t).1
        = (ns, key, m.get_override ns key)
            :: t.map (fun e' => (e'.1, e'.2.1, m.get_override e'.1 e'.2.1))
    rw [ih (m.set ns key v) hnd'.2]
    congr 1
    refine List.map_congr_left ?_
    intro e' he'
    have hne : ¬(e'.1 = ns ∧ e'.2.1 = key) := by
      rintro ⟨hc1, hc2⟩
      refine hnd'.1 ?_
      have : (e'.1, e'.2.1) ∈ ovKeys t := List.mem_map_of_mem _ he'
      rwa [hc1, hc2] at this
    rw [get_set_other m ns key e'.1 e'.2.1 v hne]

/-- Record keys of an atomically applied batch are the batch keys. -/
theorem recKeys_applyOverrides (ovs : List (String × String × Json)) (m : OverrideMap)
    (hnd : (ovKeys ovs).Nodup) :
    recKeys (applyOverrides m ovs).1 = ovKeys ovs := by
  rw [applyOverrides_records ovs m hnd]
  simp [recKeys, ovKeys]

/-- Dropping the guard of an atomically applied batch with pairwise distinct
keys restores each batch key to its pre-application state and leaves every
other key as the drop-time state has it. -/
theorem guard_drop_restores (m s : OverrideMap) (ovs : List (String × String × Json))
    (hnd : (ovKeys ovs).Nodup) :
    (∀ ns key, (ns, key) ∈ ovKeys ovs →
      ((OverrideGuard.mk (applyOverrides m ovs).1).drop s).get_override ns key
        = m.get_override ns key)
    ∧ (∀ ns key, (ns, key) ∉ ovKeys ovs →
      ((OverrideGuard.mk (applyOverrides m ovs).1).drop s).get_override ns key
        = s.get_override ns key) := by
  have hkeys := recKeys_applyOverrides ovs m hnd
  constructor
  · intro ns key hmem
    obtain ⟨e, he, heq⟩ := List.mem_map.mp hmem
    have h1 : e.1 = ns := congrArg Prod.fst heq
    have h2 : e.2.1 = key := congrArg Prod.snd heq
    subst h1; subst h2
    have hr : (e.1, e.2.1, m.get_override e.1 e.2.1) ∈ (applyOverrides m ovs).1 := by
      rw [applyOverrides_records ovs m hnd]
      exact List.mem_map_of_mem _ he
    have hnd2 : (recKeys (applyOverrides m ovs).1).Nodup := by rw [hkeys]; exact hnd
    exact replay_get_mem (applyOverrides m ovs).1 s hnd2 (e.1, e.2.1, m.get_override e.1 e.2.1) hr
  · intro ns key hmem
    exact replay_get_notin (applyOverrides m ovs).1 s ns key (by rw [hkeys]; exact hmem)

/-- C8 (amended): when a guard's scope ends its saved records are replayed in
application order (`drain(..)` runs front-to-back, not in reverse); for a
batch whose (namespace, key) pairs are pairwise distinct this restores every
entry to its prior value, or removes it if it was previously absent, and
leaves all other keys untouched; consequently nested guards (each guard its
own batch) unwind correctly: after setting override A, then B on top of A,
releasing B restores A's value, and releasing A afterwards restores the
pre-A state (possibly absent). -/
theorem claim_C8 : ∀ (m s : OverrideMap) (ovs : List (String × String × Json)),
    (ovKeys ovs).Nodup →
    (∀ ns key, (ns, key) ∈ ovKeys ovs →
      ((OverrideGuard.mk (applyOverrides m ovs).1).drop s).get_override ns key
        = m.get_override ns key)
    ∧ (∀ ns key, (ns, key) ∉ ovKeys ovs →
      ((OverrideGuard.mk (applyOverrides m ovs).1).drop s).get_override ns key
        = s.get_override ns key)
    ∧ (∀ (m0 : OverrideMap) (ns key : String) (vA vB : Json),
      let mA := (applyOverrides m0 [(ns, key, vA)]).2
      let gA := OverrideGuard.mk (applyOverrides m0 [(ns, key, vA)]).1
      let mB := (applyOverrides mA [(ns, key, vB)]).2
      let gB := OverrideGuard.mk (applyOverrides mA [(ns, key, vB)]).1
      (gB.drop mB).get_override ns key = some vA
      ∧ (gA.drop (gB.drop mB)).get_override ns key = m0.get_override ns key) := by
  intro m s ovs hnd
  refine ⟨(guard_drop_restores m s ovs hnd).1, (guard_drop_restores m s ovs hnd).2, ?_⟩
  intro m0 ns key vA vB
  constructor
  · exact ((guard_drop_restores (applyOverrides m0 [(ns, key, vA)]).2
        (applyOverrides (applyOverrides m0 [(ns, key, vA)]).2 [(ns, key, vB)]).2
        [(ns, key, vB)] (by simp [ovKeys])).1 ns key (by simp [ovKeys])).trans
      (get_set_self m0 ns key vA)
  · exact (guard_drop_restores m0 _ [(ns, key, vA)] (by simp [ovKeys])).1 ns key
      (by simp [ovKeys])

/-- The base override state for the C8 witness: `("ns", "k")` is set to 7. -/
def witnessBase : OverrideMap := OverrideMap.empty.set "ns" "k" (.intNum 7)

/-- A two-entry batch with distinct keys for the C8 witness. -/
def witnessBatch : List (String × String × Json) :=
  [("ns", "k", .intNum 9), ("ns2", "k2", .bool true)]

/-- Witness for C8 at a concrete batch: after applying and dropping the
guard, the overridden key returns to its prior value, the freshly added key
is removed, and an unrelated key is untouched. -/
theorem claim_C8_witness :
    ((OverrideGuard.mk (applyOverrides witnessBase witnessBatch).1).drop
        (applyOverrides witnessBase witnessBatch).2).get_override "ns" "k"
      = some (.intNum 7)
    ∧ ((OverrideGuard.mk (applyOverrides witnessBase witnessBatch).1).drop
        (applyOverrides witnessBase witnessBatch).2).get_override "ns2" "k2" = none
    ∧ ((OverrideGuard.mk (applyOverrides witnessBase witnessBatch).1).drop
        (applyOverrides witnessBase witnessBatch).2).get_override "other" "x" = none := by
  have h := claim_C8 witnessBase (applyOverrides witnessBase witnessBatch).2 witnessBatch
    (by decide)
  refine ⟨?_, ?_, ?_⟩
  · exact (h.1 "ns" "k" (by decide)).trans rfl
  · exact (h.1 "ns2" "k2" (by decide)).trans rfl
  · exact (h.2.1 "other" "x" (by decide)).trans rfl

/-- A batch that overrides the same (namespace, key) twice. -/
def dupBatch : List (String × String × Json) :=
  [("ns", "k", .intNum 1), ("ns", "k", .intNum 2)]

/-- Counterexample to C8 as stated: restoration replays the saved records in
application order, not reverse.  For a batch that sets `("ns", "k")` twice
starting from an empty override state — where the key was previously absent —
dropping the guard leaves the key bound to the batch's first value instead of
removing it (reverse-order replay would have removed it). -/
theorem claim_C8_counterexample :
    OverrideMap.empty.get_override "ns" "k" = none
    ∧ ((OverrideGuard.mk (applyOverrides OverrideMap.empty dupBatch).1).drop
        (applyOverrides OverrideMap.empty dupBatch).2).get_override "ns" "k"
      = some (.intNum 1) :=
  ⟨rfl, rfl⟩

/-- A parsed `OptionSchema` keeps exactly the `option_type` string found in
its JSON object. -/
theorem parseOptionSchema_type (j : Json) (os : OptionSchema)
    (h : parseOptionSchema j = some os) :
    ∃ obj, j.as_object = some obj
      ∧ (alookup obj "option_type").bind Json.as_str = some os.option_type := by
  cases hobj : j.as_object with
  | none => simp [parseOptionSchema, hobj] at h
  | some obj =>
    refine ⟨obj, rfl, ?_⟩
    cases hts : (alookup obj "option_type").bind Json.as_str with
    | none => simp [parseOptionSchema, hobj, hts] at h
    | some ts =>
      cases hd : alookup obj "default" with
      | none => simp [parseOptionSchema, hobj, hts, hd] at h
      | some d =>
        cases hdesc : alookup obj "description" with
        | none =>
          obtain rfl : (⟨ts, d, none⟩ : OptionSchema) = os := by
            simpa [parseOptionSchema, hobj, hts, hd, hdesc] using h
          rfl
        | some dj =>
          cases dj with
          | null =>
            obtain rfl : (⟨ts, d, none⟩ : OptionSchema) = os := by
              simpa [parseOptionSchema, hobj, hts, hd, hdesc] using h
            rfl
          | str s2 =>
            obtain rfl : (⟨ts, d, some s2⟩ : OptionSchema) = os := by
              simpa [parseOptionSchema, hobj, hts, hd, hdesc] using h
            rfl
          | bool b => simp [parseOptionSchema, hobj, hts, hd, hdesc] at h
          | intNum i => simp [parseOptionSchema, hobj, hts, hd, hdesc] at h
          | floatNum q => simp [parseOptionSchema, hobj, hts, hd, hdesc] at h
          | arr xs => simp [parseOptionSchema, hobj, hts, hd, hdesc] at h
          | obj kvs2 => simp [parseOptionSchema, hobj, hts, hd, hdesc] at h

/-- An option entry that passed `validate_option_definition` and parsed has a
supported declared type. -/
theorem option_type_supported (key : String) (j : Json) (path : String) (os : OptionSchema)
    (hvd : SchemaRegistry.validate_option_definition key j path = .ok ())
    (hps : parseOptionSchema j = some os) :
    os.option_type ∈ ["str", "int", "float", "bool"] := by
  obtain ⟨obj, hobj, hts⟩ := parseOptionSchema_type j os hps
  cases htv : alookup obj "option_type" with
  | none => rw [htv] at hts; cases hts
  | some tv =>
    rw [htv] at hts
    have hts' : tv.as_str = some os.option_type := hts
    by_contra hce
    have hne : ¬os.option_type = "str" ∧ ¬os.option_type = "int"
        ∧ ¬os.option_type = "float" ∧ ¬os.option_type = "bool" := by
      simpa using hce
    simp [SchemaRegistry.validate_option_definition, hobj, htv, hts', hne.1, hne.2.1,
      hne.2.2.1, hne.2.2.2] at hvd

/-- Entries that validated and parsed all carry supported declared types. -/
theorem parse_validated_entries (path : String) :
    ∀ (entries : List (String × Json)) (opts : List (String × OptionSchema)),
      validateOptionEntries path entries = .ok () →
      parseOptionEntries entries = some opts →
      ∀ p ∈ opts, p.2.option_type ∈ ["str", "int", "float", "bool"] := by
  intro entries
  induction entries with
  | nil =>
    intro opts _ hp p hmem
    obtain rfl : ([] : List (String × OptionSchema)) = opts := by
      simpa [parseOptionEntries] using hp
    cases hmem
  | cons e t ih =>
    intro opts hv hp p hmem
    obtain ⟨key, j⟩ := e
    cases hvd : SchemaRegistry.validate_option_definition key j path with
    | error err => simp [validateOptionEntries, hvd] at hv
    | ok u =>
      cases u
      have hv' : validateOptionEntries path t = .ok () := by
        simpa [validateOptionEntries, hvd] using hv
      cases hps : parseOptionSchema j with
      | none => simp [parseOptionEntries, hps] at hp
      | some os =>
        cases hpt : parseOptionEntries t with
        | none => simp [parseOptionEntries, hps, hpt] at hp
        | some tail =>
          obtain rfl : (key, os) :: tail = opts := by
            simpa [parseOptionEntries, hps, hpt] using hp
          rcases List.mem_cons.mp hmem with hh | ht2
          · subst hh
            exact option_type_supported key j path os hvd hps
          · exact ih tail hv' hpt p ht2

/-- C9 (amended): schema loading enforces that every declared option is a
JSON object declaring a supported type (`str`/`int`/`float`/`bool`) and
possessing a `default` field — but it does not compare the default's JSON
type against the declared type, so a successfully loaded registry may hold an
option whose default mismatches its declared type. -/
theorem claim_C9 : ∀ (doc : Json) (path : String) (s : NamespaceSchema),
    SchemaRegistry.load_schema_value doc path = .ok s →
    ∀ p ∈ s.options, p.2.option_type ∈ ["str", "int", "float", "bool"] := by
  intro doc path s h p hmem
  cases hv : SchemaRegistry.validate_schema_structure doc path with
  | error e => simp [SchemaRegistry.load_schema_value, hv] at h
  | ok u =>
    cases u
    cases hp : parseNamespaceSchema doc with
    | none => simp [SchemaRegistry.load_schema_value, hv, hp] at h
    | some s' =>
      obtain rfl : s' = s := by simpa [SchemaRegistry.load_schema_value, hv, hp] using h
      cases hobj : doc.as_object with
      | none => simp [SchemaRegistry.validate_schema_structure, hobj] at hv
      | some kvs =>
        have hvo : SchemaRegistry.validate_has_options kvs path = .ok () := by
          cases hver : SchemaRegistry.validate_has_version kvs path with
          | error e2 => simp [SchemaRegistry.validate_schema_structure, hobj, hver] at hv
          | ok u2 =>
            cases u2
            simpa [SchemaRegistry.validate_schema_structure, hobj, hver] using hv
        cases hopt : alookup kvs "options" with
        | none => simp [SchemaRegistry.validate_has_options, hopt] at hvo
        | some optsJson =>
          cases hoo : optsJson.as_object with
          | none => simp [SchemaRegistry.validate_has_options, hopt, hoo] at hvo
          | some entries =>
            have hvE : validateOptionEntries path entries = .ok () := by
              simpa [SchemaRegistry.validate_has_options, hopt, hoo] using hvo
            cases hvs : (alookup kvs "version").bind Json.as_str with
            | none => simp [parseNamespaceSchema, hobj, hvs] at hp
            | some vs =>
              have hoptsJ : (alookup kvs "options").bind Json.as_object = some entries := by
                rw [hopt]; exact hoo
              cases hpe : parseOptionEntries entries with
              | none => simp [parseNamespaceSchema, hobj, hvs, hoptsJ, hpe] at hp
              | some opts =>
                obtain rfl : NamespaceSchema.mk vs opts = s' := by
                  simpa [parseNamespaceSchema, hobj, hvs, hoptsJ, hpe] using hp
                exact parse_validated_entries path entries opts hvE hpe p hmem

/-- An option definition whose declared type is `int` but whose default is a
JSON string. -/
def mismatchedOption : Json :=
  .obj [("option_type", .str "int"), ("default", .str "hello")]

/-- A schema document containing `mismatchedOption`. -/
def mismatchedSchemaDoc : Json :=
  .obj [("version", .str "1.0"), ("options", .obj [("k", mismatchedOption)])]

/-- Counterexample to C9 as stated: a schema whose option declares type `int`
with a string default passes `validate_option_definition` and loads
successfully, so the loaded registry holds an `OptionSchema` whose default
fails its own declared type's runtime check. -/
theorem claim_C9_counterexample :
    SchemaRegistry.validate_option_definition "k" mismatchedOption "f" = .ok ()
    ∧ SchemaRegistry.load_schema_value mismatchedSchemaDoc "f"
        = .ok ⟨"1.0", [("k", ⟨"int", .str "hello", none⟩)]⟩
    ∧ OptionType.is_valid .int (.str "hello") = false :=
  ⟨rfl, rfl, rfl⟩

/-- Witness for C9 on a concrete well-formed document: a loaded bool option's
declared type is among the supported ones. -/
theorem claim_C9_witness :
    (⟨"bool", Json.bool false, none⟩ : OptionSchema).option_type
      ∈ ["str", "int", "float", "bool"] := by
  refine claim_C9
    (.obj [("version", .str "1.0"),
           ("options", .obj [("opt", .obj [("option_type", .str "bool"),
                                           ("default", .bool false)])])])
    "f" ⟨"1.0", [("opt", ⟨"bool", .bool false, none⟩)]⟩ rfl
    ("opt", ⟨"bool", .bool false, none⟩) ?_
  exact List.mem_singleton.mpr rfl

end SentryOptions
